import Mathlib

/-!
Shallow embedding of the graph-mutation / node-lifecycle subsystem of
react-native-audio-api: the `AudioNodeManager` translation unit
(`common/cpp/audioapi/core/utils/AudioNodeManager.cpp`) together with the
collaborator capabilities it relies on (node connect/disconnect/cleanup,
source-node state queries, the deferred destructor's non-blocking enqueue).
Nodes and parameters are named by natural-number ids; the whole observable
state of the subsystem is a record `Sys`, and every manager operation is a
pure state transformer on it.
-/

namespace AudioApi

/-- Modelled from the spec: the playback state of a scheduled source node
(`AudioScheduledSourceNode` is a collaborator whose header is outside the
shown translation unit): one of UNSCHEDULED, SCHEDULED, PLAYING, FINISHED. -/
inductive PlaybackState where
  | UNSCHEDULED
  | SCHEDULED
  | PLAYING
  | FINISHED
deriving DecidableEq

/-- Modelled from the spec: the source-node state query "is unscheduled". -/
def isUnscheduled : PlaybackState → Bool
  | .UNSCHEDULED => true
  | _ => false

/-- Modelled from the spec: the source-node state query "is finished". -/
def isFinished : PlaybackState → Bool
  | .FINISHED => true
  | _ => false

/-- The connection-type tag of a mutation event. -/
inductive ConnectionType where
  | CONNECT
  | DISCONNECT
  | DISCONNECT_ALL
  | ADD
deriving DecidableEq

/-- The payload of a mutation event: the payload tag (`EventPayloadType`)
together with the single live union variant, rendered as a sum type.
Nodes and parameters are identified by their ids. -/
inductive EventPayload where
  | nodes (f t : Nat)
  | params (f p : Nat)
  | node (n : Nat)
  | sourceNode (n : Nat)
  | audioParam (p : Nat)
deriving DecidableEq

/-- A mutation event: a connection-type tag plus a tagged payload. -/
structure Event where
  type : ConnectionType
  payload : EventPayload
deriving DecidableEq

/-- The observable state of the manager subsystem plus the node environment.
`sourceNodes`, `processingNodes` and `audioParams` are the manager's tracked
collections (sequence containers: the constructor reserves capacity and the
ADD handler appends). `channel` is the pending-mutation SPSC channel in FIFO
order, `destructorQueue`/`destructorCap` the deferred destructor's channel.
`useCount n` is the observed shared-pointer use count of node `n`,
`state n` its playback state, `outputNodes`/`outputParams` its outgoing
edges and parameter bindings. `cleanupCount`, `paramCleanupCount`,
`retireAttempts`, `disconnectLog` and `dispatchLog` instrument the
capability invocations so that "invoked exactly once"-style properties are
stated directly. -/
structure Sys where
  sourceNodes : List Nat
  processingNodes : List Nat
  audioParams : List Nat
  channel : List Event
  destructorQueue : List Nat
  destructorCap : Nat
  outputNodes : Nat → List Nat
  outputParams : Nat → List Nat
  useCount : Nat → Nat
  state : Nat → PlaybackState
  cleanupCount : Nat → Nat
  paramCleanupCount : Nat → Nat
  retireAttempts : List Nat
  disconnectLog : List (Nat × Nat)
  dispatchLog : List Event

/-- Modelled from the spec: `AudioNode::connectNode` installs the
node→node edge on the source node's outgoing-edge collection. -/
def connectNode (st : Sys) (f t : Nat) : Sys :=
  { st with outputNodes := fun m => if m = f then st.outputNodes f ++ [t] else st.outputNodes m }

/-- Modelled from the spec: `AudioNode::connectParam` installs the
node→parameter binding. -/
def connectParam (st : Sys) (f p : Nat) : Sys :=
  { st with outputParams := fun m => if m = f then st.outputParams f ++ [p] else st.outputParams m }

/-- Modelled from the spec: `AudioNode::disconnectNode` removes the named
node→node edge (the first matching entry of the collection); the embedding
logs every disconnect for the exactly-once accounting. -/
def disconnectNode (st : Sys) (f t : Nat) : Sys :=
  { st with
      outputNodes := fun m => if m = f then (st.outputNodes f).erase t else st.outputNodes m,
      disconnectLog := st.disconnectLog ++ [(f, t)] }

/-- Modelled from the spec: `AudioNode::disconnectParam` removes the named
node→parameter binding. -/
def disconnectParam (st : Sys) (f p : Nat) : Sys :=
  { st with outputParams := fun m => if m = f then (st.outputParams f).erase p else st.outputParams m }

/-- Modelled from the spec: `AudioNode::cleanup`, the idempotent cleanup
capability; the embedding counts each invocation per node. -/
def nodeCleanup (st : Sys) (n : Nat) : Sys :=
  { st with cleanupCount := fun m => if m = n then st.cleanupCount n + 1 else st.cleanupCount m }

/-- Record that the sweep offered a node to the deferred destructor
(one call of the destructor's enqueue attempt). -/
def logAttempt (st : Sys) (n : Nat) : Sys :=
  { st with retireAttempts := st.retireAttempts ++ [n] }

/-- Append a retired node handle to the destructor channel. -/
def enqueueForDeconstruction (st : Sys) (n : Nat) : Sys :=
  { st with destructorQueue := st.destructorQueue ++ [n] }

/-- Modelled from the spec: `AudioNodeDestructor::tryAddNodeForDeconstruction`,
the non-blocking enqueue offered to the render thread — true and the handle is
enqueued when the channel has space, false (nothing enqueued) when it is full. -/
def tryAddNodeForDeconstruction (st : Sys) (n : Nat) : Bool × Sys :=
  if st.destructorQueue.length < st.destructorCap then
    (true, enqueueForDeconstruction (logAttempt st n) n)
  else
    (false, logAttempt st n)

/-- Modelled from the spec: the destructor's background thread consumes the
retired handles off the render path, freeing channel space. -/
def drainDestructor (st : Sys) : Sys :=
  { st with destructorQueue := [] }

/-- `AudioNodeManager::addSourceNode`: enqueue an ADD event carrying the source node. -/
def addSourceNode (st : Sys) (n : Nat) : Sys :=
  { st with channel := st.channel ++ [⟨ConnectionType.ADD, EventPayload.sourceNode n⟩] }

/-- `AudioNodeManager::addProcessingNode`: enqueue an ADD event carrying the node. -/
def addProcessingNode (st : Sys) (n : Nat) : Sys :=
  { st with channel := st.channel ++ [⟨ConnectionType.ADD, EventPayload.node n⟩] }

/-- `AudioNodeManager::addAudioParam`: enqueue an ADD event carrying the parameter. -/
def addAudioParam (st : Sys) (p : Nat) : Sys :=
  { st with channel := st.channel ++ [⟨ConnectionType.ADD, EventPayload.audioParam p⟩] }

/-- `AudioNodeManager::addPendingNodeConnection`: enqueue a node-pair event
with the requested connection type. -/
def addPendingNodeConnection (st : Sys) (f t : Nat) (ty : ConnectionType) : Sys :=
  { st with channel := st.channel ++ [⟨ty, EventPayload.nodes f t⟩] }

/-- `AudioNodeManager::addPendingParamConnection`: enqueue a node-parameter
event with the requested connection type. -/
def addPendingParamConnection (st : Sys) (f p : Nat) (ty : ConnectionType) : Sys :=
  { st with channel := st.channel ++ [⟨ty, EventPayload.params f p⟩] }

/-- `AudioNodeManager::handleConnectEvent`: dispatch on the payload tag and
install the edge or the binding. Any other payload tag trips an assertion in
the code; the embedding leaves the state unchanged there. -/
def handleConnectEvent (st : Sys) (e : Event) : Sys :=
  match e.payload with
  | .nodes f t => connectNode st f t
  | .params f p => connectParam st f p
  | _ => st

/-- `AudioNodeManager::handleDisconnectEvent`: remove the named edge or binding. -/
def handleDisconnectEvent (st : Sys) (e : Event) : Sys :=
  match e.payload with
  | .nodes f t => disconnectNode st f t
  | .params f p => disconnectParam st f p
  | _ => st

/-- Loop of `AudioNodeManager::handleDisconnectAllEvent`: the iterator walk
that captures the next position before each disconnect visits each entry of
the initial outgoing-edge list exactly once, disconnecting it. -/
def disconnectAllLoop (f : Nat) : List Nat → Sys → Sys
  | [], st => st
  | t :: rest, st => disconnectAllLoop f rest (disconnectNode st f t)

/-- `AudioNodeManager::handleDisconnectAllEvent`: disconnect every outgoing
edge of the named node. -/
def handleDisconnectAllEvent (st : Sys) (e : Event) : Sys :=
  match e.payload with
  | .nodes f _ => disconnectAllLoop f (st.outputNodes f) st
  | _ => st

/-- `AudioNodeManager::handleAddToDeconstructionEvent`: append the carried
node / source node / parameter to its tracked collection (`push_back`). -/
def handleAddToDeconstructionEvent (st : Sys) (e : Event) : Sys :=
  match e.payload with
  | .node n => { st with processingNodes := st.processingNodes ++ [n] }
  | .sourceNode n => { st with sourceNodes := st.sourceNodes ++ [n] }
  | .audioParam p => { st with audioParams := st.audioParams ++ [p] }
  | _ => st

/-- One iteration of the drain loop of `settlePendingConnections`: record the
event in the dispatch log and dispatch it by connection type. -/
def dispatchEvent (st : Sys) (e : Event) : Sys :=
  let st := { st with dispatchLog := st.dispatchLog ++ [e] }
  match e.type with
  | .CONNECT => handleConnectEvent st e
  | .DISCONNECT => handleDisconnectEvent st e
  | .DISCONNECT_ALL => handleDisconnectAllEvent st e
  | .ADD => handleAddToDeconstructionEvent st e

/-- The drain loop: dispatch the received events front to back. -/
def settleLoop : List Event → Sys → Sys
  | [], st => st
  | e :: rest, st => settleLoop rest (dispatchEvent st e)

/-- `AudioNodeManager::settlePendingConnections`: drain the mutation channel
completely via the non-blocking poll, dispatching each event in FIFO order. -/
def settlePendingConnections (st : Sys) : Sys :=
  settleLoop st.channel { st with channel := [] }

/-- The teardown guard of the source-node sweep: the tracked entry is the
only remaining owner (`use_count() == 1`) and the node is unscheduled or
finished. -/
def sourceQualifies (st : Sys) (n : Nat) : Bool :=
  st.useCount n == 1 && (isUnscheduled (st.state n) || isFinished (st.state n))

/-- The teardown guard of the processing-node sweep: the tracked entry is the
only remaining owner (`use_count() == 1`). -/
def processingQualifies (st : Sys) (n : Nat) : Bool :=
  st.useCount n == 1

/-- The source-node half of `prepareNodesForDestruction`: walk the tracked
source-node collection; a qualifying entry is cleaned up and offered to the
deferred destructor, and erased only when the non-blocking enqueue succeeds.
Returns the surviving collection together with the updated state. -/
def sweepSourceNodes : List Nat → Sys → List Nat × Sys
  | [], st => ([], st)
  | n :: rest, st =>
    if sourceQualifies st n then
      let st1 := nodeCleanup st n
      let res := tryAddNodeForDeconstruction st1 n
      if res.1 then
        sweepSourceNodes rest res.2
      else
        let r := sweepSourceNodes rest res.2
        (n :: r.1, r.2)
    else
      let r := sweepSourceNodes rest st
      (n :: r.1, r.2)

/-- The processing-node half of `prepareNodesForDestruction`: same walk with
the use-count guard only. -/
def sweepProcessingNodes : List Nat → Sys → List Nat × Sys
  | [], st => ([], st)
  | n :: rest, st =>
    if processingQualifies st n then
      let st1 := nodeCleanup st n
      let res := tryAddNodeForDeconstruction st1 n
      if res.1 then
        sweepProcessingNodes rest res.2
      else
        let r := sweepProcessingNodes rest res.2
        (n :: r.1, r.2)
    else
      let r := sweepProcessingNodes rest st
      (n :: r.1, r.2)

/-- `AudioNodeManager::prepareNodesForDestruction`: one sweep over the
tracked source nodes followed by one sweep over the tracked processing
nodes. -/
def prepareNodesForDestruction (st : Sys) : Sys :=
  let r1 := sweepSourceNodes st.sourceNodes st
  let st1 := { r1.2 with sourceNodes := r1.1 }
  let r2 := sweepProcessingNodes st1.processingNodes st1
  { r2.2 with processingNodes := r2.1 }

/-- `AudioNodeManager::preProcessGraph`: settle the pending connections, then
run the destruction sweep. -/
def preProcessGraph (st : Sys) : Sys :=
  prepareNodesForDestruction (settlePendingConnections st)

/-- Loop of `AudioNodeManager::cleanup`: invoke the cleanup capability on
every entry of a tracked collection. -/
def cleanupList : List Nat → Sys → Sys
  | [], st => st
  | n :: rest, st => cleanupList rest (nodeCleanup st n)

/-- `AudioNodeManager::cleanup` (the shutdown path): invoke cleanup on every
tracked source and processing node directly, bypassing the deferred
destructor, then clear all three tracked collections in place. -/
def cleanup (st : Sys) : Sys :=
  let st1 := cleanupList st.sourceNodes st
  let st2 := cleanupList st1.processingNodes st1
  { st2 with sourceNodes := [], processingNodes := [], audioParams := [] }

/-- A baseline manager state: empty collections and logs, every node observed
with use count 1 (the tracked entry would be its only owner), every node
unscheduled, destructor channel of capacity 4. -/
def initSys : Sys where
  sourceNodes := []
  processingNodes := []
  audioParams := []
  channel := []
  destructorQueue := []
  destructorCap := 4
  outputNodes := fun _ => []
  outputParams := fun _ => []
  useCount := fun _ => 1
  state := fun _ => PlaybackState.UNSCHEDULED
  cleanupCount := fun _ => 0
  paramCleanupCount := fun _ => 0
  retireAttempts := []
  disconnectLog := []
  dispatchLog := []

/-- The manager state between the two halves of `prepareNodesForDestruction`:
the source-node collection has been swept, the processing-node collection not
yet. -/
def afterSourceSweep (st : Sys) : Sys :=
  { (sweepSourceNodes st.sourceNodes st).2 with
      sourceNodes := (sweepSourceNodes st.sourceNodes st).1 }

/-- A tracked source node 5 and processing node 6, both externally held
(observed use count 2). -/
def stRefHeld : Sys :=
  { initSys with sourceNodes := [5], processingNodes := [6], useCount := fun _ => 2 }

/-- A tracked source node 5 currently playing, with the tracked entry as its
only owner (use count 1). -/
def stPlaying : Sys :=
  { initSys with sourceNodes := [5], state := fun _ => PlaybackState.PLAYING }

/-- A manager whose every node is externally held (use count 2). -/
def stHeld : Sys :=
  { initSys with useCount := fun _ => 2 }

/-- A finished tracked source node 3 with a destructor channel of capacity 0:
its retire attempt can never succeed. -/
def stStuck : Sys :=
  { initSys with sourceNodes := [3], state := fun _ => PlaybackState.FINISHED,
                 destructorCap := 0 }

/-- Two ADD registrations of the same source node 7 pending in the channel. -/
def stDupAdd : Sys :=
  { initSys with channel := [⟨ConnectionType.ADD, EventPayload.sourceNode 7⟩,
                             ⟨ConnectionType.ADD, EventPayload.sourceNode 7⟩] }

/-- A finished tracked source node 2 facing a full destructor channel
(capacity 1, one handle already queued). -/
def stBackpressure : Sys :=
  { initSys with sourceNodes := [2], state := fun _ => PlaybackState.FINISHED,
                 destructorQueue := [9], destructorCap := 1 }

/-- A finished tracked source node 4 facing a full destructor channel
(capacity 1, one handle already queued). -/
def stRepeat : Sys :=
  { initSys with sourceNodes := [4], state := fun _ => PlaybackState.FINISHED,
                 destructorQueue := [9], destructorCap := 1 }

/-! Step equations for the destructor's non-blocking enqueue and the two sweeps. -/

lemma tryAdd_of_space (st : Sys) (n : Nat)
    (hs : st.destructorQueue.length < st.destructorCap) :
    tryAddNodeForDeconstruction st n =
      (true, enqueueForDeconstruction (logAttempt st n) n) := by
  simp [tryAddNodeForDeconstruction, hs]

lemma tryAdd_of_full (st : Sys) (n : Nat)
    (hs : ¬ st.destructorQueue.length < st.destructorCap) :
    tryAddNodeForDeconstruction st n = (false, logAttempt st n) := by
  simp [tryAddNodeForDeconstruction, hs]

lemma sweepSourceNodes_cons_notqual (st : Sys) (n : Nat) (rest : List Nat)
    (hq : sourceQualifies st n = false) :
    sweepSourceNodes (n :: rest) st =
      (n :: (sweepSourceNodes rest st).1, (sweepSourceNodes rest st).2) := by
  simp [sweepSourceNodes, hq]

lemma sweepSourceNodes_cons_space (st : Sys) (n : Nat) (rest : List Nat)
    (hq : sourceQualifies st n = true)
    (hs : st.destructorQueue.length < st.destructorCap) :
    sweepSourceNodes (n :: rest) st =
      sweepSourceNodes rest (enqueueForDeconstruction (logAttempt (nodeCleanup st n) n) n) := by
  have h1 : tryAddNodeForDeconstruction (nodeCleanup st n) n =
      (true, enqueueForDeconstruction (logAttempt (nodeCleanup st n) n) n) :=
    tryAdd_of_space (nodeCleanup st n) n hs
  simp [sweepSourceNodes, hq, h1]

lemma sweepSourceNodes_cons_full (st : Sys) (n : Nat) (rest : List Nat)
    (hq : sourceQualifies st n = true)
    (hs : ¬ st.destructorQueue.length < st.destructorCap) :
    sweepSourceNodes (n :: rest) st =
      (n :: (sweepSourceNodes rest (logAttempt (nodeCleanup st n) n)).1,
       (sweepSourceNodes rest (logAttempt (nodeCleanup st n) n)).2) := by
  have h1 : tryAddNodeForDeconstruction (nodeCleanup st n) n =
      (false, logAttempt (nodeCleanup st n) n) :=
    tryAdd_of_full (nodeCleanup st n) n hs
  simp [sweepSourceNodes, hq, h1]

lemma sweepProcessingNodes_cons_notqual (st : Sys) (n : Nat) (rest : List Nat)
    (hq : processingQualifies st n = false) :
    sweepProcessingNodes (n :: rest) st =
      (n :: (sweepProcessingNodes rest st).1, (sweepProcessingNodes rest st).2) := by
  simp [sweepProcessingNodes, hq]

lemma sweepProcessingNodes_cons_space (st : Sys) (n : Nat) (rest : List Nat)
    (hq : processingQualifies st n = true)
    (hs : st.destructorQueue.length < st.destructorCap) :
    sweepProcessingNodes (n :: rest) st =
      sweepProcessingNodes rest (enqueueForDeconstruction (logAttempt (nodeCleanup st n) n) n) := by
  have h1 : tryAddNodeForDeconstruction (nodeCleanup st n) n =
      (true, enqueueForDeconstruction (logAttempt (nodeCleanup st n) n) n) :=
    tryAdd_of_space (nodeCleanup st n) n hs
  simp [sweepProcessingNodes, hq, h1]

lemma sweepProcessingNodes_cons_full (st : Sys) (n : Nat) (rest : List Nat)
    (hq : processingQualifies st n = true)
    (hs : ¬ st.destructorQueue.length < st.destructorCap) :
    sweepProcessingNodes (n :: rest) st =
      (n :: (sweepProcessingNodes rest (logAttempt (nodeCleanup st n) n)).1,
       (sweepProcessingNodes rest (logAttempt (nodeCleanup st n) n)).2) := by
  have h1 : tryAddNodeForDeconstruction (nodeCleanup st n) n =
      (false, logAttempt (nodeCleanup st n) n) :=
    tryAdd_of_full (nodeCleanup st n) n hs
  simp [sweepProcessingNodes, hq, h1]

/-! Shape lemmas: each sweep only changes the cleanup counters, the attempt log
and the destructor queue; everything else of the state is framed. -/

lemma sweepSrc_shape (l : List Nat) :
    ∀ st : Sys, ∃ cc ra dq, (sweepSourceNodes l st).2 =
      { st with cleanupCount := cc, retireAttempts := ra, destructorQueue := dq } := by
  induction l with
  | nil =>
    intro st
    exact ⟨st.cleanupCount, st.retireAttempts, st.destructorQueue, rfl⟩
  | cons n rest ih =>
    intro st
    by_cases hq : sourceQualifies st n = true
    · by_cases hs : st.destructorQueue.length < st.destructorCap
      · rw [sweepSourceNodes_cons_space st n rest hq hs]
        obtain ⟨cc, ra, dq, h⟩ := ih _
        exact ⟨cc, ra, dq, by rw [h]; rfl⟩
      · rw [sweepSourceNodes_cons_full st n rest hq hs]
        obtain ⟨cc, ra, dq, h⟩ := ih _
        exact ⟨cc, ra, dq, by rw [show (n :: (sweepSourceNodes rest (logAttempt (nodeCleanup st n) n)).1,
          (sweepSourceNodes rest (logAttempt (nodeCleanup st n) n)).2).2 =
          (sweepSourceNodes rest (logAttempt (nodeCleanup st n) n)).2 from rfl, h]; rfl⟩
    · rw [sweepSourceNodes_cons_notqual st n rest (by simpa using hq)]
      obtain ⟨cc, ra, dq, h⟩ := ih st
      exact ⟨cc, ra, dq, by rw [show (n :: (sweepSourceNodes rest st).1,
        (sweepSourceNodes rest st).2).2 = (sweepSourceNodes rest st).2 from rfl, h]⟩

lemma sweepProc_shape (l : List Nat) :
    ∀ st : Sys, ∃ cc ra dq, (sweepProcessingNodes l st).2 =
      { st with cleanupCount := cc, retireAttempts := ra, destructorQueue := dq } := by
  induction l with
  | nil =>
    intro st
    exact ⟨st.cleanupCount, st.retireAttempts, st.destructorQueue, rfl⟩
  | cons n rest ih =>
    intro st
    by_cases hq : processingQualifies st n = true
    · by_cases hs : st.destructorQueue.length < st.destructorCap
      · rw [sweepProcessingNodes_cons_space st n rest hq hs]
        obtain ⟨cc, ra, dq, h⟩ := ih _
        exact ⟨cc, ra, dq, by rw [h]; rfl⟩
      · rw [sweepProcessingNodes_cons_full st n rest hq hs]
        obtain ⟨cc, ra, dq, h⟩ := ih _
        exact ⟨cc, ra, dq, by rw [show (n :: (sweepProcessingNodes rest (logAttempt (nodeCleanup st n) n)).1,
          (sweepProcessingNodes rest (logAttempt (nodeCleanup st n) n)).2).2 =
          (sweepProcessingNodes rest (logAttempt (nodeCleanup st n) n)).2 from rfl, h]; rfl⟩
    · rw [sweepProcessingNodes_cons_notqual st n rest (by simpa using hq)]
      obtain ⟨cc, ra, dq, h⟩ := ih st
      exact ⟨cc, ra, dq, by rw [show (n :: (sweepProcessingNodes rest st).1,
        (sweepProcessingNodes rest st).2).2 = (sweepProcessingNodes rest st).2 from rfl, h]⟩

/-! Projection lemmas for the elementary effects of the sweep. -/

@[simp] lemma sourceQualifies_nodeCleanup (st : Sys) (k m : Nat) :
    sourceQualifies (nodeCleanup st k) m = sourceQualifies st m := rfl

@[simp] lemma sourceQualifies_logAttempt (st : Sys) (k m : Nat) :
    sourceQualifies (logAttempt st k) m = sourceQualifies st m := rfl

@[simp] lemma sourceQualifies_enqueue (st : Sys) (k m : Nat) :
    sourceQualifies (enqueueForDeconstruction st k) m = sourceQualifies st m := rfl

@[simp] lemma processingQualifies_nodeCleanup (st : Sys) (k m : Nat) :
    processingQualifies (nodeCleanup st k) m = processingQualifies st m := rfl

@[simp] lemma processingQualifies_logAttempt (st : Sys) (k m : Nat) :
    processingQualifies (logAttempt st k) m = processingQualifies st m := rfl

@[simp] lemma processingQualifies_enqueue (st : Sys) (k m : Nat) :
    processingQualifies (enqueueForDeconstruction st k) m = processingQualifies st m := rfl

@[simp] lemma cleanupCount_nodeCleanup (st : Sys) (k n : Nat) :
    (nodeCleanup st k).cleanupCount n =
      if n = k then st.cleanupCount k + 1 else st.cleanupCount n := rfl

@[simp] lemma cleanupCount_logAttempt (st : Sys) (k n : Nat) :
    (logAttempt st k).cleanupCount n = st.cleanupCount n := rfl

@[simp] lemma cleanupCount_enqueue (st : Sys) (k n : Nat) :
    (enqueueForDeconstruction st k).cleanupCount n = st.cleanupCount n := rfl

@[simp] lemma retireAttempts_nodeCleanup (st : Sys) (k : Nat) :
    (nodeCleanup st k).retireAttempts = st.retireAttempts := rfl

@[simp] lemma retireAttempts_logAttempt (st : Sys) (k : Nat) :
    (logAttempt st k).retireAttempts = st.retireAttempts ++ [k] := rfl

@[simp] lemma retireAttempts_enqueue (st : Sys) (k : Nat) :
    (enqueueForDeconstruction st k).retireAttempts = st.retireAttempts := rfl

@[simp] lemma destructorQueue_nodeCleanup (st : Sys) (k : Nat) :
    (nodeCleanup st k).destructorQueue = st.destructorQueue := rfl

@[simp] lemma destructorQueue_logAttempt (st : Sys) (k : Nat) :
    (logAttempt st k).destructorQueue = st.destructorQueue := rfl

@[simp] lemma destructorQueue_enqueue (st : Sys) (k : Nat) :
    (enqueueForDeconstruction st k).destructorQueue = st.destructorQueue ++ [k] := rfl

@[simp] lemma destructorCap_nodeCleanup (st : Sys) (k : Nat) :
    (nodeCleanup st k).destructorCap = st.destructorCap := rfl

@[simp] lemma destructorCap_logAttempt (st : Sys) (k : Nat) :
    (logAttempt st k).destructorCap = st.destructorCap := rfl

@[simp] lemma destructorCap_enqueue (st : Sys) (k : Nat) :
    (enqueueForDeconstruction st k).destructorCap = st.destructorCap := rfl

/-! Behaviour of the source-node sweep on a single tracked entry, by induction
over the collection. -/

lemma sweepSrc_mem_keep (l : List Nat) :
    ∀ (st : Sys) (n : Nat), sourceQualifies st n = false → n ∈ l →
      n ∈ (sweepSourceNodes l st).1 := by
  induction l with
  | nil => intro st n _ h; exact absurd h (List.not_mem_nil n)
  | cons m rest ih =>
    intro st n hqn hmem
    by_cases hq : sourceQualifies st m = true
    · have hnm : n ≠ m := by intro e; subst e; rw [hqn] at hq; cases hq
      have hmem' : n ∈ rest := by
        rcases List.mem_cons.mp hmem with h | h
        · exact absurd h hnm
        · exact h
      by_cases hs : st.destructorQueue.length < st.destructorCap
      · rw [sweepSourceNodes_cons_space st m rest hq hs]
        exact ih _ n hqn hmem'
      · rw [sweepSourceNodes_cons_full st m rest hq hs]
        exact List.mem_cons_of_mem m (ih _ n hqn hmem')
    · rw [sweepSourceNodes_cons_notqual st m rest (by simpa using hq)]
      rcases List.mem_cons.mp hmem with h | h
      · exact List.mem_cons.mpr (Or.inl h)
      · exact List.mem_cons_of_mem m (ih st n hqn h)

lemma sweepProc_mem_keep (l : List Nat) :
    ∀ (st : Sys) (n : Nat), processingQualifies st n = false → n ∈ l →
      n ∈ (sweepProcessingNodes l st).1 := by
  induction l with
  | nil => intro st n _ h; exact absurd h (List.not_mem_nil n)
  | cons m rest ih =>
    intro st n hqn hmem
    by_cases hq : processingQualifies st m = true
    · have hnm : n ≠ m := by intro e; subst e; rw [hqn] at hq; cases hq
      have hmem' : n ∈ rest := by
        rcases List.mem_cons.mp hmem with h | h
        · exact absurd h hnm
        · exact h
      by_cases hs : st.destructorQueue.length < st.destructorCap
      · rw [sweepProcessingNodes_cons_space st m rest hq hs]
        exact ih _ n hqn hmem'
      · rw [sweepProcessingNodes_cons_full st m rest hq hs]
        exact List.mem_cons_of_mem m (ih _ n hqn hmem')
    · rw [sweepProcessingNodes_cons_notqual st m rest (by simpa using hq)]
      rcases List.mem_cons.mp hmem with h | h
      · exact List.mem_cons.mpr (Or.inl h)
      · exact List.mem_cons_of_mem m (ih st n hqn h)

lemma sweepSrc_cleanupCount (l : List Nat) :
    ∀ (st : Sys) (n : Nat), (sweepSourceNodes l st).2.cleanupCount n =
      st.cleanupCount n + (if sourceQualifies st n = true then l.count n else 0) := by
  induction l with
  | nil => intro st n; simp [sweepSourceNodes]
  | cons m rest ih =>
    intro st n
    by_cases hq : sourceQualifies st m = true
    · by_cases hs : st.destructorQueue.length < st.destructorCap
      · rw [sweepSourceNodes_cons_space st m rest hq hs, ih _ n]
        by_cases hnm : n = m
        · subst hnm
          simp [hq, List.count_cons]
          omega
        · simp [hnm, List.count_cons, Nat.ne_of_gt]
      · rw [sweepSourceNodes_cons_full st m rest hq hs]
        have := ih (logAttempt (nodeCleanup st m) m) n
        rw [show (m :: (sweepSourceNodes rest (logAttempt (nodeCleanup st m) m)).1,
          (sweepSourceNodes rest (logAttempt (nodeCleanup st m) m)).2).2 =
          (sweepSourceNodes rest (logAttempt (nodeCleanup st m) m)).2 from rfl, this]
        by_cases hnm : n = m
        · subst hnm
          simp [hq, List.count_cons]
          omega
        · simp [hnm, List.count_cons]
    · rw [sweepSourceNodes_cons_notqual st m rest (by simpa using hq)]
      rw [show (m :: (sweepSourceNodes rest st).1, (sweepSourceNodes rest st).2).2 =
        (sweepSourceNodes rest st).2 from rfl, ih st n]
      by_cases hqn : sourceQualifies st n = true
      · have hnm : n ≠ m := by intro e; subst e; rw [hqn] at hq; exact hq rfl
        simp [hqn, List.count_cons, hnm]
      · simp [hqn] at *

lemma sweepProc_cleanupCount (l : List Nat) :
    ∀ (st : Sys) (n : Nat), (sweepProcessingNodes l st).2.cleanupCount n =
      st.cleanupCount n + (if processingQualifies st n = true then l.count n else 0) := by
  induction l with
  | nil => intro st n; simp [sweepProcessingNodes]
  | cons m rest ih =>
    intro st n
    by_cases hq : processingQualifies st m = true
    · by_cases hs : st.destructorQueue.length < st.destructorCap
      · rw [sweepProcessingNodes_cons_space st m rest hq hs, ih _ n]
        by_cases hnm : n = m
        · subst hnm
          simp [hq, List.count_cons]
          omega
        · simp [hnm, List.count_cons]
      · rw [sweepProcessingNodes_cons_full st m rest hq hs]
        have := ih (logAttempt (nodeCleanup st m) m) n
        rw [show (m :: (sweepProcessingNodes rest (logAttempt (nodeCleanup st m) m)).1,
          (sweepProcessingNodes rest (logAttempt (nodeCleanup st m) m)).2).2 =
          (sweepProcessingNodes rest (logAttempt (nodeCleanup st m) m)).2 from rfl, this]
        by_cases hnm : n = m
        · subst hnm
          simp [hq, List.count_cons]
          omega
        · simp [hnm, List.count_cons]
    · rw [sweepProcessingNodes_cons_notqual st m rest (by simpa using hq)]
      rw [show (m :: (sweepProcessingNodes rest st).1, (sweepProcessingNodes rest st).2).2 =
        (sweepProcessingNodes rest st).2 from rfl, ih st n]
      by_cases hqn : processingQualifies st n = true
      · have hnm : n ≠ m := by intro e; subst e; rw [hqn] at hq; exact hq rfl
        simp [hqn, List.count_cons, hnm]
      · simp [hqn] at *

lemma sweepSrc_attempts_not (l : List Nat) :
    ∀ (st : Sys) (n : Nat), (sourceQualifies st n = false ∨ n ∉ l) →
      n ∉ st.retireAttempts → n ∉ (sweepSourceNodes l st).2.retireAttempts := by
  induction l with
  | nil => intro st n _ ha; simpa [sweepSourceNodes] using ha
  | cons m rest ih =>
    intro st n hq ha
    have hrest : sourceQualifies st n = false ∨ n ∉ rest := by
      rcases hq with h | h
      · exact Or.inl h
      · exact Or.inr fun hm => h (List.mem_cons_of_mem m hm)
    by_cases hqm : sourceQualifies st m = true
    · have hnm : n ≠ m := by
        intro e; subst e
        rcases hq with h | h
        · rw [h] at hqm; cases hqm
        · exact h (List.mem_cons_self n rest)
      have ha' : n ∉ st.retireAttempts ++ [m] := by
        simp [ha, hnm]
      by_cases hs : st.destructorQueue.length < st.destructorCap
      · rw [sweepSourceNodes_cons_space st m rest hqm hs]
        exact ih _ n hrest (by simpa using ha')
      · rw [sweepSourceNodes_cons_full st m rest hqm hs]
        exact ih _ n hrest (by simpa using ha')
    · rw [sweepSourceNodes_cons_notqual st m rest (by simpa using hqm)]
      exact ih st n hrest ha

lemma sweepProc_attempts_not (l : List Nat) :
    ∀ (st : Sys) (n : Nat), (processingQualifies st n = false ∨ n ∉ l) →
      n ∉ st.retireAttempts → n ∉ (sweepProcessingNodes l st).2.retireAttempts := by
  induction l with
  | nil => intro st n _ ha; simpa [sweepProcessingNodes] using ha
  | cons m rest ih =>
    intro st n hq ha
    have hrest : processingQualifies st n = false ∨ n ∉ rest := by
      rcases hq with h | h
      · exact Or.inl h
      · exact Or.inr fun hm => h (List.mem_cons_of_mem m hm)
    by_cases hqm : processingQualifies st m = true
    · have hnm : n ≠ m := by
        intro e; subst e
        rcases hq with h | h
        · rw [h] at hqm; cases hqm
        · exact h (List.mem_cons_self n rest)
      have ha' : n ∉ st.retireAttempts ++ [m] := by
        simp [ha, hnm]
      by_cases hs : st.destructorQueue.length < st.destructorCap
      · rw [sweepProcessingNodes_cons_space st m rest hqm hs]
        exact ih _ n hrest (by simpa using ha')
      · rw [sweepProcessingNodes_cons_full st m rest hqm hs]
        exact ih _ n hrest (by simpa using ha')
    · rw [sweepProcessingNodes_cons_notqual st m rest (by simpa using hqm)]
      exact ih st n hrest ha

lemma sweepSrc_queue_not (l : List Nat) :
    ∀ (st : Sys) (n : Nat), (sourceQualifies st n = false ∨ n ∉ l) →
      n ∉ st.destructorQueue → n ∉ (sweepSourceNodes l st).2.destructorQueue := by
  induction l with
  | nil => intro st n _ ha; simpa [sweepSourceNodes] using ha
  | cons m rest ih =>
    intro st n hq ha
    have hrest : sourceQualifies st n = false ∨ n ∉ rest := by
      rcases hq with h | h
      · exact Or.inl h
      · exact Or.inr fun hm => h (List.mem_cons_of_mem m hm)
    by_cases hqm : sourceQualifies st m = true
    · have hnm : n ≠ m := by
        intro e; subst e
        rcases hq with h | h
        · rw [h] at hqm; cases hqm
        · exact h (List.mem_cons_self n rest)
      by_cases hs : st.destructorQueue.length < st.destructorCap
      · rw [sweepSourceNodes_cons_space st m rest hqm hs]
        exact ih _ n hrest (by simp [ha, hnm])
      · rw [sweepSourceNodes_cons_full st m rest hqm hs]
        exact ih _ n hrest (by simpa using ha)
    · rw [sweepSourceNodes_cons_notqual st m rest (by simpa using hqm)]
      exact ih st n hrest ha

lemma sweepProc_queue_not (l : List Nat) :
    ∀ (st : Sys) (n : Nat), (processingQualifies st n = false ∨ n ∉ l) →
      n ∉ st.destructorQueue → n ∉ (sweepProcessingNodes l st).2.destructorQueue := by
  induction l with
  | nil => intro st n _ ha; simpa [sweepProcessingNodes] using ha
  | cons m rest ih =>
    intro st n hq ha
    have hrest : processingQualifies st n = false ∨ n ∉ rest := by
      rcases hq with h | h
      · exact Or.inl h
      · exact Or.inr fun hm => h (List.mem_cons_of_mem m hm)
    by_cases hqm : processingQualifies st m = true
    · have hnm : n ≠ m := by
        intro e; subst e
        rcases hq with h | h
        · rw [h] at hqm; cases hqm
        · exact h (List.mem_cons_self n rest)
      by_cases hs : st.destructorQueue.length < st.destructorCap
      · rw [sweepProcessingNodes_cons_space st m rest hqm hs]
        exact ih _ n hrest (by simp [ha, hnm])
      · rw [sweepProcessingNodes_cons_full st m rest hqm hs]
        exact ih _ n hrest (by simpa using ha)
    · rw [sweepProcessingNodes_cons_notqual st m rest (by simpa using hqm)]
      exact ih st n hrest ha

lemma sweepSrc_queue_mono (l : List Nat) :
    ∀ (st : Sys) (n : Nat), n ∈ st.destructorQueue →
      n ∈ (sweepSourceNodes l st).2.destructorQueue := by
  induction l with
  | nil => intro st n h; simpa [sweepSourceNodes] using h
  | cons m rest ih =>
    intro st n h
    by_cases hqm : sourceQualifies st m = true
    · by_cases hs : st.destructorQueue.length < st.destructorCap
      · rw [sweepSourceNodes_cons_space st m rest hqm hs]
        exact ih _ n (by simp [h])
      · rw [sweepSourceNodes_cons_full st m rest hqm hs]
        exact ih _ n (by simpa using h)
    · rw [sweepSourceNodes_cons_notqual st m rest (by simpa using hqm)]
      exact ih st n h

lemma sweepProc_queue_mono (l : List Nat) :
    ∀ (st : Sys) (n : Nat), n ∈ st.destructorQueue →
      n ∈ (sweepProcessingNodes l st).2.destructorQueue := by
  induction l with
  | nil => intro st n h; simpa [sweepProcessingNodes] using h
  | cons m rest ih =>
    intro st n h
    by_cases hqm : processingQualifies st m = true
    · by_cases hs : st.destructorQueue.length < st.destructorCap
      · rw [sweepProcessingNodes_cons_space st m rest hqm hs]
        exact ih _ n (by simp [h])
      · rw [sweepProcessingNodes_cons_full st m rest hqm hs]
        exact ih _ n (by simpa using h)
    · rw [sweepProcessingNodes_cons_notqual st m rest (by simpa using hqm)]
      exact ih st n h

/-- When the destructor channel is already full, a sweep of the source
collection erases nothing and the channel is untouched. -/
lemma sweepSrc_full (l : List Nat) :
    ∀ st : Sys, ¬ st.destructorQueue.length < st.destructorCap →
      (sweepSourceNodes l st).1 = l ∧
      (sweepSourceNodes l st).2.destructorQueue = st.destructorQueue := by
  induction l with
  | nil => intro st _; exact ⟨rfl, rfl⟩
  | cons m rest ih =>
    intro st hs
    by_cases hqm : sourceQualifies st m = true
    · rw [sweepSourceNodes_cons_full st m rest hqm hs]
      have := ih (logAttempt (nodeCleanup st m) m) (by simpa using hs)
      exact ⟨by simp [this.1], by simpa using this.2⟩
    · rw [sweepSourceNodes_cons_notqual st m rest (by simpa using hqm)]
      have := ih st hs
      exact ⟨by simp [this.1], this.2⟩

lemma sweepProc_full (l : List Nat) :
    ∀ st : Sys, ¬ st.destructorQueue.length < st.destructorCap →
      (sweepProcessingNodes l st).1 = l ∧
      (sweepProcessingNodes l st).2.destructorQueue = st.destructorQueue := by
  induction l with
  | nil => intro st _; exact ⟨rfl, rfl⟩
  | cons m rest ih =>
    intro st hs
    by_cases hqm : processingQualifies st m = true
    · rw [sweepProcessingNodes_cons_full st m rest hqm hs]
      have := ih (logAttempt (nodeCleanup st m) m) (by simpa using hs)
      exact ⟨by simp [this.1], by simpa using this.2⟩
    · rw [sweepProcessingNodes_cons_notqual st m rest (by simpa using hqm)]
      have := ih st hs
      exact ⟨by simp [this.1], this.2⟩

/-- When the destructor channel has room for the whole collection, the sweep
retires exactly the qualifying entries: the survivors are the non-qualifying
entries and every qualifying entry is appended to the channel, in order. -/
lemma sweepSrc_space (l : List Nat) :
    ∀ st : Sys, st.destructorQueue.length + l.length ≤ st.destructorCap →
      (sweepSourceNodes l st).1 = l.filter (fun m => !sourceQualifies st m) ∧
      (sweepSourceNodes l st).2.destructorQueue =
        st.destructorQueue ++ l.filter (fun m => sourceQualifies st m) := by
  induction l with
  | nil => intro st _; exact ⟨rfl, by simp [sweepSourceNodes]⟩
  | cons m rest ih =>
    intro st hcap
    by_cases hqm : sourceQualifies st m = true
    · have hs : st.destructorQueue.length < st.destructorCap := by
        simp [List.length_cons] at hcap
        omega
      rw [sweepSourceNodes_cons_space st m rest hqm hs]
      have hcap' : (enqueueForDeconstruction (logAttempt (nodeCleanup st m) m) m).destructorQueue.length
          + rest.length ≤ (enqueueForDeconstruction (logAttempt (nodeCleanup st m) m) m).destructorCap := by
        simp [List.length_cons] at hcap ⊢
        omega
      have := ih _ hcap'
      refine ⟨?_, ?_⟩
      · rw [this.1]
        simp [hqm]
      · rw [this.2]
        simp [hqm, List.filter_cons]
    · rw [sweepSourceNodes_cons_notqual st m rest (by simpa using hqm)]
      have hcap' : st.destructorQueue.length + rest.length ≤ st.destructorCap := by
        simp [List.length_cons] at hcap
        omega
      have := ih st hcap'
      refine ⟨?_, ?_⟩
      · rw [show (m :: (sweepSourceNodes rest st).1, (sweepSourceNodes rest st).2).1 =
          m :: (sweepSourceNodes rest st).1 from rfl, this.1]
        simp [hqm]
      · rw [show (m :: (sweepSourceNodes rest st).1, (sweepSourceNodes rest st).2).2 =
          (sweepSourceNodes rest st).2 from rfl, this.2]
        simp [hqm, List.filter_cons]

/-! Framed projections of each sweep's result state, derived from the shape
lemmas. -/

@[simp] lemma sweepSrc2_sourceNodes (l : List Nat) (st : Sys) :
    (sweepSourceNodes l st).2.sourceNodes = st.sourceNodes := by
  obtain ⟨cc, ra, dq, h⟩ := sweepSrc_shape l st; rw [h]

@[simp] lemma sweepSrc2_processingNodes (l : List Nat) (st : Sys) :
    (sweepSourceNodes l st).2.processingNodes = st.processingNodes := by
  obtain ⟨cc, ra, dq, h⟩ := sweepSrc_shape l st; rw [h]

@[simp] lemma sweepSrc2_audioParams (l : List Nat) (st : Sys) :
    (sweepSourceNodes l st).2.audioParams = st.audioParams := by
  obtain ⟨cc, ra, dq, h⟩ := sweepSrc_shape l st; rw [h]

@[simp] lemma sweepSrc2_channel (l : List Nat) (st : Sys) :
    (sweepSourceNodes l st).2.channel = st.channel := by
  obtain ⟨cc, ra, dq, h⟩ := sweepSrc_shape l st; rw [h]

@[simp] lemma sweepSrc2_destructorCap (l : List Nat) (st : Sys) :
    (sweepSourceNodes l st).2.destructorCap = st.destructorCap := by
  obtain ⟨cc, ra, dq, h⟩ := sweepSrc_shape l st; rw [h]

@[simp] lemma sweepSrc2_useCount (l : List Nat) (st : Sys) :
    (sweepSourceNodes l st).2.useCount = st.useCount := by
  obtain ⟨cc, ra, dq, h⟩ := sweepSrc_shape l st; rw [h]

@[simp] lemma sweepSrc2_state (l : List Nat) (st : Sys) :
    (sweepSourceNodes l st).2.state = st.state := by
  obtain ⟨cc, ra, dq, h⟩ := sweepSrc_shape l st; rw [h]

@[simp] lemma sweepSrc2_outputNodes (l : List Nat) (st : Sys) :
    (sweepSourceNodes l st).2.outputNodes = st.outputNodes := by
  obtain ⟨cc, ra, dq, h⟩ := sweepSrc_shape l st; rw [h]

@[simp] lemma sweepSrc2_outputParams (l : List Nat) (st : Sys) :
    (sweepSourceNodes l st).2.outputParams = st.outputParams := by
  obtain ⟨cc, ra, dq, h⟩ := sweepSrc_shape l st; rw [h]

@[simp] lemma sweepSrc2_paramCleanupCount (l : List Nat) (st : Sys) :
    (sweepSourceNodes l st).2.paramCleanupCount = st.paramCleanupCount := by
  obtain ⟨cc, ra, dq, h⟩ := sweepSrc_shape l st; rw [h]

@[simp] lemma sweepSrc2_dispatchLog (l : List Nat) (st : Sys) :
    (sweepSourceNodes l st).2.dispatchLog = st.dispatchLog := by
  obtain ⟨cc, ra, dq, h⟩ := sweepSrc_shape l st; rw [h]

@[simp] lemma sweepSrc2_disconnectLog (l : List Nat) (st : Sys) :
    (sweepSourceNodes l st).2.disconnectLog = st.disconnectLog := by
  obtain ⟨cc, ra, dq, h⟩ := sweepSrc_shape l st; rw [h]

@[simp] lemma sweepProc2_sourceNodes (l : List Nat) (st : Sys) :
    (sweepProcessingNodes l st).2.sourceNodes = st.sourceNodes := by
  obtain ⟨cc, ra, dq, h⟩ := sweepProc_shape l st; rw [h]

@[simp] lemma sweepProc2_processingNodes (l : List Nat) (st : Sys) :
    (sweepProcessingNodes l st).2.processingNodes = st.processingNodes := by
  obtain ⟨cc, ra, dq, h⟩ := sweepProc_shape l st; rw [h]

@[simp] lemma sweepProc2_audioParams (l : List Nat) (st : Sys) :
    (sweepProcessingNodes l st).2.audioParams = st.audioParams := by
  obtain ⟨cc, ra, dq, h⟩ := sweepProc_shape l st; rw [h]

@[simp] lemma sweepProc2_channel (l : List Nat) (st : Sys) :
    (sweepProcessingNodes l st).2.channel = st.channel := by
  obtain ⟨cc, ra, dq, h⟩ := sweepProc_shape l st; rw [h]

@[simp] lemma sweepProc2_destructorCap (l : List Nat) (st : Sys) :
    (sweepProcessingNodes l st).2.destructorCap = st.destructorCap := by
  obtain ⟨cc, ra, dq, h⟩ := sweepProc_shape l st; rw [h]

@[simp] lemma sweepProc2_useCount (l : List Nat) (st : Sys) :
    (sweepProcessingNodes l st).2.useCount = st.useCount := by
  obtain ⟨cc, ra, dq, h⟩ := sweepProc_shape l st; rw [h]

@[simp] lemma sweepProc2_state (l : List Nat) (st : Sys) :
    (sweepProcessingNodes l st).2.state = st.state := by
  obtain ⟨cc, ra, dq, h⟩ := sweepProc_shape l st; rw [h]

@[simp] lemma sweepProc2_outputNodes (l : List Nat) (st : Sys) :
    (sweepProcessingNodes l st).2.outputNodes = st.outputNodes := by
  obtain ⟨cc, ra, dq, h⟩ := sweepProc_shape l st; rw [h]

@[simp] lemma sweepProc2_outputParams (l : List Nat) (st : Sys) :
    (sweepProcessingNodes l st).2.outputParams = st.outputParams := by
  obtain ⟨cc, ra, dq, h⟩ := sweepProc_shape l st; rw [h]

@[simp] lemma sweepProc2_paramCleanupCount (l : List Nat) (st : Sys) :
    (sweepProcessingNodes l st).2.paramCleanupCount = st.paramCleanupCount := by
  obtain ⟨cc, ra, dq, h⟩ := sweepProc_shape l st; rw [h]

@[simp] lemma sweepProc2_dispatchLog (l : List Nat) (st : Sys) :
    (sweepProcessingNodes l st).2.dispatchLog = st.dispatchLog := by
  obtain ⟨cc, ra, dq, h⟩ := sweepProc_shape l st; rw [h]

@[simp] lemma sweepProc2_disconnectLog (l : List Nat) (st : Sys) :
    (sweepProcessingNodes l st).2.disconnectLog = st.disconnectLog := by
  obtain ⟨cc, ra, dq, h⟩ := sweepProc_shape l st; rw [h]

/-! Decomposition of `prepareNodesForDestruction` through `afterSourceSweep`,
and the framed projections of both stages. -/

lemma prepare_decompose (st : Sys) :
    prepareNodesForDestruction st =
      { (sweepProcessingNodes (afterSourceSweep st).processingNodes (afterSourceSweep st)).2 with
          processingNodes :=
            (sweepProcessingNodes (afterSourceSweep st).processingNodes (afterSourceSweep st)).1 } := rfl

@[simp] lemma afterSourceSweep_sourceNodes (st : Sys) :
    (afterSourceSweep st).sourceNodes = (sweepSourceNodes st.sourceNodes st).1 := rfl

@[simp] lemma afterSourceSweep_processingNodes (st : Sys) :
    (afterSourceSweep st).processingNodes = st.processingNodes := by
  simp [afterSourceSweep]

@[simp] lemma afterSourceSweep_audioParams (st : Sys) :
    (afterSourceSweep st).audioParams = st.audioParams := by
  simp [afterSourceSweep]

@[simp] lemma afterSourceSweep_channel (st : Sys) :
    (afterSourceSweep st).channel = st.channel := by
  simp [afterSourceSweep]

@[simp] lemma afterSourceSweep_destructorCap (st : Sys) :
    (afterSourceSweep st).destructorCap = st.destructorCap := by
  simp [afterSourceSweep]

@[simp] lemma afterSourceSweep_useCount (st : Sys) :
    (afterSourceSweep st).useCount = st.useCount := by
  simp [afterSourceSweep]

@[simp] lemma afterSourceSweep_state (st : Sys) :
    (afterSourceSweep st).state = st.state := by
  simp [afterSourceSweep]

@[simp] lemma afterSourceSweep_outputNodes (st : Sys) :
    (afterSourceSweep st).outputNodes = st.outputNodes := by
  simp [afterSourceSweep]

@[simp] lemma afterSourceSweep_outputParams (st : Sys) :
    (afterSourceSweep st).outputParams = st.outputParams := by
  simp [afterSourceSweep]

@[simp] lemma afterSourceSweep_paramCleanupCount (st : Sys) :
    (afterSourceSweep st).paramCleanupCount = st.paramCleanupCount := by
  simp [afterSourceSweep]

lemma afterSourceSweep_retireAttempts (st : Sys) :
    (afterSourceSweep st).retireAttempts =
      (sweepSourceNodes st.sourceNodes st).2.retireAttempts := rfl

lemma afterSourceSweep_destructorQueue (st : Sys) :
    (afterSourceSweep st).destructorQueue =
      (sweepSourceNodes st.sourceNodes st).2.destructorQueue := rfl

lemma afterSourceSweep_cleanupCount (st : Sys) :
    (afterSourceSweep st).cleanupCount =
      (sweepSourceNodes st.sourceNodes st).2.cleanupCount := rfl

@[simp] lemma sourceQualifies_afterSourceSweep (st : Sys) (n : Nat) :
    sourceQualifies (afterSourceSweep st) n = sourceQualifies st n := by
  simp [sourceQualifies]

@[simp] lemma processingQualifies_afterSourceSweep (st : Sys) (n : Nat) :
    processingQualifies (afterSourceSweep st) n = processingQualifies st n := by
  simp [processingQualifies]

/-! Projections of a whole sweep (`prepareNodesForDestruction`). -/

lemma prepare_sourceNodes_eq (st : Sys) :
    (prepareNodesForDestruction st).sourceNodes = (sweepSourceNodes st.sourceNodes st).1 := by
  rw [prepare_decompose]
  simp

lemma prepare_processingNodes_eq (st : Sys) :
    (prepareNodesForDestruction st).processingNodes =
      (sweepProcessingNodes st.processingNodes (afterSourceSweep st)).1 := by
  rw [prepare_decompose]
  simp

lemma prepare_retireAttempts_eq (st : Sys) :
    (prepareNodesForDestruction st).retireAttempts =
      (sweepProcessingNodes st.processingNodes (afterSourceSweep st)).2.retireAttempts := by
  rw [prepare_decompose]
  simp

lemma prepare_destructorQueue_eq (st : Sys) :
    (prepareNodesForDestruction st).destructorQueue =
      (sweepProcessingNodes st.processingNodes (afterSourceSweep st)).2.destructorQueue := by
  rw [prepare_decompose]
  simp

lemma prepare_audioParams (st : Sys) :
    (prepareNodesForDestruction st).audioParams = st.audioParams := by
  rw [prepare_decompose]
  simp

lemma prepare_paramCleanupCount (st : Sys) :
    (prepareNodesForDestruction st).paramCleanupCount = st.paramCleanupCount := by
  rw [prepare_decompose]
  simp

lemma prepare_useCount (st : Sys) :
    (prepareNodesForDestruction st).useCount = st.useCount := by
  rw [prepare_decompose]
  simp

lemma prepare_state (st : Sys) :
    (prepareNodesForDestruction st).state = st.state := by
  rw [prepare_decompose]
  simp

lemma prepare_destructorCap (st : Sys) :
    (prepareNodesForDestruction st).destructorCap = st.destructorCap := by
  rw [prepare_decompose]
  simp

lemma prepare_outputParams (st : Sys) :
    (prepareNodesForDestruction st).outputParams = st.outputParams := by
  rw [prepare_decompose]
  simp

lemma prepare_outputNodes (st : Sys) :
    (prepareNodesForDestruction st).outputNodes = st.outputNodes := by
  rw [prepare_decompose]
  simp

lemma prepare_cleanupCount (st : Sys) (n : Nat) :
    (prepareNodesForDestruction st).cleanupCount n =
      st.cleanupCount n
        + (if sourceQualifies st n = true then st.sourceNodes.count n else 0)
        + (if processingQualifies st n = true then st.processingNodes.count n else 0) := by
  rw [prepare_decompose]
  have h2 := sweepProc_cleanupCount (afterSourceSweep st).processingNodes (afterSourceSweep st) n
  have h1 := sweepSrc_cleanupCount st.sourceNodes st n
  simp only [afterSourceSweep_processingNodes, processingQualifies_afterSourceSweep,
    afterSourceSweep_cleanupCount] at h2
  simp [h2, h1]

lemma prepare_mem_source (st : Sys) (n : Nat)
    (hq : sourceQualifies st n = false) (hmem : n ∈ st.sourceNodes) :
    n ∈ (prepareNodesForDestruction st).sourceNodes := by
  rw [prepare_sourceNodes_eq]
  exact sweepSrc_mem_keep st.sourceNodes st n hq hmem

lemma prepare_mem_processing (st : Sys) (n : Nat)
    (hq : processingQualifies st n = false) (hmem : n ∈ st.processingNodes) :
    n ∈ (prepareNodesForDestruction st).processingNodes := by
  rw [prepare_processingNodes_eq]
  exact sweepProc_mem_keep st.processingNodes (afterSourceSweep st) n (by simpa using hq) hmem

lemma prepare_attempts_not (st : Sys) (n : Nat)
    (h1 : sourceQualifies st n = false ∨ n ∉ st.sourceNodes)
    (h2 : processingQualifies st n = false ∨ n ∉ st.processingNodes)
    (ha : n ∉ st.retireAttempts) :
    n ∉ (prepareNodesForDestruction st).retireAttempts := by
  rw [prepare_retireAttempts_eq]
  apply sweepProc_attempts_not
  · rcases h2 with h | h
    · exact Or.inl (by simpa using h)
    · exact Or.inr h
  · rw [afterSourceSweep_retireAttempts]
    exact sweepSrc_attempts_not st.sourceNodes st n h1 ha

lemma prepare_queue_not (st : Sys) (n : Nat)
    (h1 : sourceQualifies st n = false ∨ n ∉ st.sourceNodes)
    (h2 : processingQualifies st n = false ∨ n ∉ st.processingNodes)
    (ha : n ∉ st.destructorQueue) :
    n ∉ (prepareNodesForDestruction st).destructorQueue := by
  rw [prepare_destructorQueue_eq]
  apply sweepProc_queue_not
  · rcases h2 with h | h
    · exact Or.inl (by simpa using h)
    · exact Or.inr h
  · rw [afterSourceSweep_destructorQueue]
    exact sweepSrc_queue_not st.sourceNodes st n h1 ha

lemma prepare_queue_mono (st : Sys) (n : Nat) (h : n ∈ st.destructorQueue) :
    n ∈ (prepareNodesForDestruction st).destructorQueue := by
  rw [prepare_destructorQueue_eq]
  apply sweepProc_queue_mono
  rw [afterSourceSweep_destructorQueue]
  exact sweepSrc_queue_mono st.sourceNodes st n h

/-- Under a full destructor channel a whole sweep erases nothing from either
tracked collection and leaves the channel unchanged. -/
lemma prepare_full (st : Sys) (hs : ¬ st.destructorQueue.length < st.destructorCap) :
    (prepareNodesForDestruction st).sourceNodes = st.sourceNodes ∧
    (prepareNodesForDestruction st).processingNodes = st.processingNodes ∧
    (prepareNodesForDestruction st).destructorQueue = st.destructorQueue := by
  have hsrc := sweepSrc_full st.sourceNodes st hs
  have hq1 : (afterSourceSweep st).destructorQueue = st.destructorQueue := by
    rw [afterSourceSweep_destructorQueue, hsrc.2]
  have hs1 : ¬ (afterSourceSweep st).destructorQueue.length <
      (afterSourceSweep st).destructorCap := by
    rw [hq1, afterSourceSweep_destructorCap]
    exact hs
  have hproc := sweepProc_full (afterSourceSweep st).processingNodes (afterSourceSweep st) hs1
  refine ⟨?_, ?_, ?_⟩
  · rw [prepare_sourceNodes_eq, hsrc.1]
  · rw [prepare_processingNodes_eq]
    have := hproc.1
    simp only [afterSourceSweep_processingNodes] at this ⊢
    rw [this]
  · rw [prepare_destructorQueue_eq]
    have := hproc.2
    simp only [afterSourceSweep_processingNodes] at this
    rw [this, hq1]

/-- With room in the destructor channel for the whole source collection, a
qualifying tracked source node is retired by one sweep: erased from the
collection and enqueued on the destructor channel. -/
lemma prepare_retire_source (st : Sys) (n : Nat)
    (hq : sourceQualifies st n = true)
    (hmem : n ∈ st.sourceNodes)
    (hcap : st.destructorQueue.length + st.sourceNodes.length ≤ st.destructorCap) :
    n ∉ (prepareNodesForDestruction st).sourceNodes ∧
    n ∈ (prepareNodesForDestruction st).destructorQueue := by
  have hspace := sweepSrc_space st.sourceNodes st hcap
  constructor
  · rw [prepare_sourceNodes_eq, hspace.1]
    intro hmemf
    have hfalse := (List.mem_filter.mp hmemf).2
    rw [hq] at hfalse
    simp at hfalse
  · have hin : n ∈ (sweepSourceNodes st.sourceNodes st).2.destructorQueue := by
      rw [hspace.2]
      exact List.mem_append.mpr (Or.inr (List.mem_filter.mpr ⟨hmem, hq⟩))
    rw [prepare_destructorQueue_eq]
    apply sweepProc_queue_mono
    rw [afterSourceSweep_destructorQueue]
    exact hin

/-! The drain loop of `settlePendingConnections`: shapes and the dispatch log. -/

lemma disconnectAllLoop_shape (f : Nat) (l : List Nat) :
    ∀ st : Sys, ∃ g dl, disconnectAllLoop f l st =
      { st with outputNodes := g, disconnectLog := dl } := by
  induction l with
  | nil => intro st; exact ⟨st.outputNodes, st.disconnectLog, rfl⟩
  | cons t rest ih =>
    intro st
    obtain ⟨g, dl, h⟩ := ih (disconnectNode st f t)
    refine ⟨g, dl, ?_⟩
    rw [show disconnectAllLoop f (t :: rest) st =
      disconnectAllLoop f rest (disconnectNode st f t) from rfl, h]
    rfl

lemma dispatchEvent_shape (st : Sys) (e : Event) :
    ∃ sn pn ap g1 g2 dl dp, dispatchEvent st e =
      { st with sourceNodes := sn, processingNodes := pn, audioParams := ap,
                outputNodes := g1, outputParams := g2, disconnectLog := dl,
                dispatchLog := dp } := by
  obtain ⟨ty, pl⟩ := e
  cases ty <;> cases pl <;>
    first
      | exact ⟨_, _, _, _, _, _, _, rfl⟩
      | (rename_i f t
         obtain ⟨g, dl, h⟩ := disconnectAllLoop_shape f (st.outputNodes f)
           { st with dispatchLog :=
               st.dispatchLog ++ [⟨ConnectionType.DISCONNECT_ALL, EventPayload.nodes f t⟩] }
         exact ⟨st.sourceNodes, st.processingNodes, st.audioParams, g, st.outputParams, dl,
           st.dispatchLog ++ [⟨ConnectionType.DISCONNECT_ALL, EventPayload.nodes f t⟩],
           by rw [show dispatchEvent st ⟨ConnectionType.DISCONNECT_ALL, EventPayload.nodes f t⟩ =
             disconnectAllLoop f (st.outputNodes f)
               { st with dispatchLog :=
                   st.dispatchLog ++ [⟨ConnectionType.DISCONNECT_ALL, EventPayload.nodes f t⟩] }
             from rfl, h]⟩)

lemma dispatchEvent_dispatchLog (st : Sys) (e : Event) :
    (dispatchEvent st e).dispatchLog = st.dispatchLog ++ [e] := by
  obtain ⟨ty, pl⟩ := e
  cases ty <;> cases pl <;>
    first
      | rfl
      | (rename_i f t
         obtain ⟨g, dl, h⟩ := disconnectAllLoop_shape f (st.outputNodes f)
           { st with dispatchLog :=
               st.dispatchLog ++ [⟨ConnectionType.DISCONNECT_ALL, EventPayload.nodes f t⟩] }
         rw [show dispatchEvent st ⟨ConnectionType.DISCONNECT_ALL, EventPayload.nodes f t⟩ =
           disconnectAllLoop f (st.outputNodes f)
             { st with dispatchLog :=
                 st.dispatchLog ++ [⟨ConnectionType.DISCONNECT_ALL, EventPayload.nodes f t⟩] }
           from rfl, h])

lemma settleLoop_shape (l : List Event) :
    ∀ st : Sys, ∃ sn pn ap g1 g2 dl dp, settleLoop l st =
      { st with sourceNodes := sn, processingNodes := pn, audioParams := ap,
                outputNodes := g1, outputParams := g2, disconnectLog := dl,
                dispatchLog := dp } := by
  induction l with
  | nil =>
    intro st
    exact ⟨st.sourceNodes, st.processingNodes, st.audioParams, st.outputNodes,
      st.outputParams, st.disconnectLog, st.dispatchLog, rfl⟩
  | cons e rest ih =>
    intro st
    obtain ⟨sn1, pn1, ap1, g11, g21, dl1, dp1, h1⟩ := dispatchEvent_shape st e
    obtain ⟨sn, pn, ap, g1, g2, dl, dp, h⟩ := ih (dispatchEvent st e)
    refine ⟨sn, pn, ap, g1, g2, dl, dp, ?_⟩
    rw [show settleLoop (e :: rest) st = settleLoop rest (dispatchEvent st e) from rfl, h, h1]

lemma settleLoop_dispatchLog (l : List Event) :
    ∀ st : Sys, (settleLoop l st).dispatchLog = st.dispatchLog ++ l := by
  induction l with
  | nil => intro st; simp [settleLoop]
  | cons e rest ih =>
    intro st
    rw [show settleLoop (e :: rest) st = settleLoop rest (dispatchEvent st e) from rfl,
      ih (dispatchEvent st e), dispatchEvent_dispatchLog]
    simp

lemma settleLoop_channel (l : List Event) (st : Sys) :
    (settleLoop l st).channel = st.channel := by
  obtain ⟨sn, pn, ap, g1, g2, dl, dp, h⟩ := settleLoop_shape l st
  rw [h]

lemma settle_channel_empty (st : Sys) :
    (settlePendingConnections st).channel = [] := by
  rw [show settlePendingConnections st =
    settleLoop st.channel { st with channel := [] } from rfl, settleLoop_channel]

lemma settle_dispatchLog (st : Sys) :
    (settlePendingConnections st).dispatchLog = st.dispatchLog ++ st.channel := by
  rw [show settlePendingConnections st =
    settleLoop st.channel { st with channel := [] } from rfl, settleLoop_dispatchLog]

/-! The shutdown path. -/

lemma cleanupList_shape (l : List Nat) :
    ∀ st : Sys, ∃ cc, cleanupList l st = { st with cleanupCount := cc } := by
  induction l with
  | nil => intro st; exact ⟨st.cleanupCount, rfl⟩
  | cons m rest ih =>
    intro st
    obtain ⟨cc, h⟩ := ih (nodeCleanup st m)
    refine ⟨cc, ?_⟩
    rw [show cleanupList (m :: rest) st = cleanupList rest (nodeCleanup st m) from rfl, h]
    rfl

lemma cleanupList_cleanupCount (l : List Nat) :
    ∀ (st : Sys) (n : Nat),
      (cleanupList l st).cleanupCount n = st.cleanupCount n + l.count n := by
  induction l with
  | nil => intro st n; simp [cleanupList]
  | cons m rest ih =>
    intro st n
    rw [show cleanupList (m :: rest) st = cleanupList rest (nodeCleanup st m) from rfl,
      ih (nodeCleanup st m) n]
    by_cases hnm : n = m
    · subst hnm
      simp [List.count_cons]
      omega
    · simp [hnm, List.count_cons]

lemma cleanup_tracked_empty (st : Sys) :
    (cleanup st).sourceNodes = [] ∧ (cleanup st).processingNodes = [] ∧
    (cleanup st).audioParams = [] :=
  ⟨rfl, rfl, rfl⟩

lemma cleanup_cleanupCount (st : Sys) (n : Nat) :
    (cleanup st).cleanupCount n =
      st.cleanupCount n + st.sourceNodes.count n + st.processingNodes.count n := by
  obtain ⟨cc1, h1⟩ := cleanupList_shape st.sourceNodes st
  have e : (cleanup st).cleanupCount n =
      (cleanupList (cleanupList st.sourceNodes st).processingNodes
        (cleanupList st.sourceNodes st)).cleanupCount n := rfl
  rw [e, cleanupList_cleanupCount, cleanupList_cleanupCount]
  rw [h1]

lemma cleanup_paramCleanupCount (st : Sys) :
    (cleanup st).paramCleanupCount = st.paramCleanupCount := by
  obtain ⟨cc1, h1⟩ := cleanupList_shape st.sourceNodes st
  obtain ⟨cc2, h2⟩ := cleanupList_shape
    (cleanupList st.sourceNodes st).processingNodes (cleanupList st.sourceNodes st)
  have e : (cleanup st).paramCleanupCount =
      (cleanupList (cleanupList st.sourceNodes st).processingNodes
        (cleanupList st.sourceNodes st)).paramCleanupCount := rfl
  rw [e, h2, h1]

/-! The disconnect-all pass. -/

lemma disconnectAllLoop_spec (f : Nat) (l : List Nat) :
    ∀ st : Sys, st.outputNodes f = l →
      (disconnectAllLoop f l st).outputNodes f = [] ∧
      (disconnectAllLoop f l st).disconnectLog =
        st.disconnectLog ++ l.map (fun x => (f, x)) := by
  induction l with
  | nil => intro st h; exact ⟨h, by simp [disconnectAllLoop]⟩
  | cons t rest ih =>
    intro st h
    have hstep : disconnectAllLoop f (t :: rest) st =
        disconnectAllLoop f rest (disconnectNode st f t) := rfl
    have hON : (disconnectNode st f t).outputNodes f = rest := by
      simp [disconnectNode, h]
    obtain ⟨h1, h2⟩ := ih (disconnectNode st f t) hON
    refine ⟨by rw [hstep]; exact h1, ?_⟩
    rw [hstep, h2]
    simp [disconnectNode]

/-! Auxiliary congruence and iteration lemmas. -/

lemma sourceQualifies_congr (st st' : Sys) (n : Nat)
    (h1 : st'.useCount = st.useCount) (h2 : st'.state = st.state) :
    sourceQualifies st' n = sourceQualifies st n := by
  simp [sourceQualifies, h1, h2]

lemma processingQualifies_congr (st st' : Sys) (n : Nat)
    (h1 : st'.useCount = st.useCount) :
    processingQualifies st' n = processingQualifies st n := by
  simp [processingQualifies, h1]

@[simp] lemma drainDestructor_sourceNodes (st : Sys) :
    (drainDestructor st).sourceNodes = st.sourceNodes := rfl

@[simp] lemma drainDestructor_processingNodes (st : Sys) :
    (drainDestructor st).processingNodes = st.processingNodes := rfl

@[simp] lemma drainDestructor_destructorQueue (st : Sys) :
    (drainDestructor st).destructorQueue = [] := rfl

@[simp] lemma drainDestructor_destructorCap (st : Sys) :
    (drainDestructor st).destructorCap = st.destructorCap := rfl

@[simp] lemma drainDestructor_useCount (st : Sys) :
    (drainDestructor st).useCount = st.useCount := rfl

@[simp] lemma drainDestructor_state (st : Sys) :
    (drainDestructor st).state = st.state := rfl

@[simp] lemma drainDestructor_cleanupCount (st : Sys) :
    (drainDestructor st).cleanupCount = st.cleanupCount := rfl

/-- Iterating the sweep under a permanently full destructor channel: the
tracked collections and the channel never change, and each iteration adds one
round of cleanup invocations per qualifying tracked occurrence. -/
lemma prepare_iterate_full (st : Sys) (k : Nat)
    (hfull : ¬ st.destructorQueue.length < st.destructorCap) :
    (prepareNodesForDestruction^[k] st).sourceNodes = st.sourceNodes ∧
    (prepareNodesForDestruction^[k] st).processingNodes = st.processingNodes ∧
    (prepareNodesForDestruction^[k] st).destructorQueue = st.destructorQueue ∧
    (prepareNodesForDestruction^[k] st).destructorCap = st.destructorCap ∧
    (prepareNodesForDestruction^[k] st).useCount = st.useCount ∧
    (prepareNodesForDestruction^[k] st).state = st.state ∧
    (∀ n, (prepareNodesForDestruction^[k] st).cleanupCount n = st.cleanupCount n +
      k * ((if sourceQualifies st n = true then st.sourceNodes.count n else 0)
        + (if processingQualifies st n = true then st.processingNodes.count n else 0))) := by
  induction k with
  | zero => simp
  | succ k ih =>
    obtain ⟨h1, h2, h3, h4, h5, h6, h7⟩ := ih
    have hfullK : ¬ (prepareNodesForDestruction^[k] st).destructorQueue.length <
        (prepareNodesForDestruction^[k] st).destructorCap := by
      rw [h3, h4]; exact hfull
    have hp := prepare_full (prepareNodesForDestruction^[k] st) hfullK
    rw [Function.iterate_succ_apply']
    refine ⟨by rw [hp.1, h1], by rw [hp.2.1, h2], by rw [hp.2.2, h3], ?_, ?_, ?_, ?_⟩
    · rw [prepare_destructorCap, h4]
    · rw [prepare_useCount, h5]
    · rw [prepare_state, h6]
    · intro n
      rw [prepare_cleanupCount, h7 n,
        sourceQualifies_congr st (prepareNodesForDestruction^[k] st) n h5 h6,
        processingQualifies_congr st (prepareNodesForDestruction^[k] st) n h5,
        h1, h2]
      by_cases hq1 : sourceQualifies st n = true <;>
        by_cases hq2 : processingQualifies st n = true <;>
          simp [hq1, hq2] <;> ring

/-! Claim theorems. -/

/-- C1: a tracked node — source or processing — whose external reference
count is observed as greater than 1 is not selected for teardown by one
invocation of `prepareNodesForDestruction`: its cleanup is not invoked, it is
never offered to the deferred destructor, and it remains in its tracked
collection. -/
theorem C1_refcount_guard (st : Sys) (n : Nat)
    (hcnt : 1 < st.useCount n)
    (hatt : n ∉ st.retireAttempts)
    (hdq : n ∉ st.destructorQueue) :
    (n ∈ st.sourceNodes → n ∈ (prepareNodesForDestruction st).sourceNodes) ∧
    (n ∈ st.processingNodes → n ∈ (prepareNodesForDestruction st).processingNodes) ∧
    (prepareNodesForDestruction st).cleanupCount n = st.cleanupCount n ∧
    n ∉ (prepareNodesForDestruction st).retireAttempts ∧
    n ∉ (prepareNodesForDestruction st).destructorQueue := by
  have hne : st.useCount n ≠ 1 := by omega
  have hq1 : sourceQualifies st n = false := by
    simp [sourceQualifies, hne]
  have hq2 : processingQualifies st n = false := by
    simp [processingQualifies, hne]
  refine ⟨fun hm => prepare_mem_source st n hq1 hm,
    fun hm => prepare_mem_processing st n hq2 hm, ?_, ?_, ?_⟩
  · rw [prepare_cleanupCount]
    simp [hq1, hq2]
  · exact prepare_attempts_not st n (Or.inl hq1) (Or.inl hq2) hatt
  · exact prepare_queue_not st n (Or.inl hq1) (Or.inl hq2) hdq

/-- Witness for C1 at the concrete state `stRefHeld` and node 5. -/
theorem C1_refcount_guard_witness :
    (1 < stRefHeld.useCount 5 ∧ 5 ∉ stRefHeld.retireAttempts ∧
      5 ∉ stRefHeld.destructorQueue) ∧
    ((5 ∈ stRefHeld.sourceNodes → 5 ∈ (prepareNodesForDestruction stRefHeld).sourceNodes) ∧
     (5 ∈ stRefHeld.processingNodes → 5 ∈ (prepareNodesForDestruction stRefHeld).processingNodes) ∧
     (prepareNodesForDestruction stRefHeld).cleanupCount 5 = stRefHeld.cleanupCount 5 ∧
     5 ∉ (prepareNodesForDestruction stRefHeld).retireAttempts ∧
     5 ∉ (prepareNodesForDestruction stRefHeld).destructorQueue) :=
  ⟨⟨by decide, by decide, by decide⟩,
    C1_refcount_guard stRefHeld 5 (by decide) (by decide) (by decide)⟩

/-- C2: a tracked source node in state PLAYING or SCHEDULED is never selected
for teardown by a sweep, regardless of its reference count: it is not cleaned
up, not retired, and stays in the tracked source-node collection. -/
theorem C2_playback_guard (st : Sys) (n : Nat)
    (hmem : n ∈ st.sourceNodes)
    (hstate : st.state n = PlaybackState.PLAYING ∨ st.state n = PlaybackState.SCHEDULED)
    (hproc : n ∉ st.processingNodes)
    (hatt : n ∉ st.retireAttempts)
    (hdq : n ∉ st.destructorQueue) :
    n ∈ (prepareNodesForDestruction st).sourceNodes ∧
    (prepareNodesForDestruction st).cleanupCount n = st.cleanupCount n ∧
    n ∉ (prepareNodesForDestruction st).retireAttempts ∧
    n ∉ (prepareNodesForDestruction st).destructorQueue := by
  have hq1 : sourceQualifies st n = false := by
    rcases hstate with h | h <;> simp [sourceQualifies, h, isUnscheduled, isFinished]
  refine ⟨prepare_mem_source st n hq1 hmem, ?_, ?_, ?_⟩
  · rw [prepare_cleanupCount]
    have hz : st.processingNodes.count n = 0 := List.count_eq_zero.mpr hproc
    simp [hq1, hz]
  · exact prepare_attempts_not st n (Or.inl hq1) (Or.inr hproc) hatt
  · exact prepare_queue_not st n (Or.inl hq1) (Or.inr hproc) hdq

/-- Witness for C2 at the concrete state `stPlaying` and node 5, whose use
count is 1 — the playback guard alone protects it. -/
theorem C2_playback_guard_witness :
    (5 ∈ stPlaying.sourceNodes ∧
     (stPlaying.state 5 = PlaybackState.PLAYING ∨ stPlaying.state 5 = PlaybackState.SCHEDULED) ∧
     5 ∉ stPlaying.processingNodes ∧ 5 ∉ stPlaying.retireAttempts ∧
     5 ∉ stPlaying.destructorQueue) ∧
    (5 ∈ (prepareNodesForDestruction stPlaying).sourceNodes ∧
     (prepareNodesForDestruction stPlaying).cleanupCount 5 = stPlaying.cleanupCount 5 ∧
     5 ∉ (prepareNodesForDestruction stPlaying).retireAttempts ∧
     5 ∉ (prepareNodesForDestruction stPlaying).destructorQueue) :=
  ⟨⟨by decide, by decide, by decide, by decide, by decide⟩,
    C2_playback_guard stPlaying 5 (by decide) (by decide) (by decide) (by decide) (by decide)⟩

/-- C9: the sweep never removes a parameter and never runs cleanup through
the tracked parameter collection — `prepareNodesForDestruction` leaves the
parameter collection and the parameter cleanup counters unchanged for every
state — and `cleanup` (shutdown) clears the collection without invoking any
parameter cleanup. -/
theorem C9_parameter_frame (st : Sys) :
    (prepareNodesForDestruction st).audioParams = st.audioParams ∧
    (prepareNodesForDestruction st).paramCleanupCount = st.paramCleanupCount ∧
    (cleanup st).audioParams = [] ∧
    (cleanup st).paramCleanupCount = st.paramCleanupCount :=
  ⟨prepare_audioParams st, prepare_paramCleanupCount st,
    (cleanup_tracked_empty st).2.2, cleanup_paramCleanupCount st⟩

/-- C8: one call of `settlePendingConnections` drains the mutation channel
completely — the channel is empty when it returns — and dispatches the
pending events in exactly the enqueue (FIFO) order: the dispatch log grows by
precisely the channel content, in order. -/
theorem C8_fifo_complete_drain (st : Sys) :
    (settlePendingConnections st).channel = [] ∧
    (settlePendingConnections st).dispatchLog = st.dispatchLog ++ st.channel :=
  ⟨settle_channel_empty st, settle_dispatchLog st⟩

/-- C7: processing one DISCONNECT_ALL event for a node removes every outgoing
edge exactly once — the disconnect log grows by exactly one disconnect per
edge of the initial collection, in order, with none skipped or duplicated —
and leaves the node with zero outgoing edges, even though the edge collection
shrinks while it is iterated. -/
theorem C7_disconnect_all (st : Sys) (f t : Nat) :
    (handleDisconnectAllEvent st
      ⟨ConnectionType.DISCONNECT_ALL, EventPayload.nodes f t⟩).outputNodes f = [] ∧
    (handleDisconnectAllEvent st
      ⟨ConnectionType.DISCONNECT_ALL, EventPayload.nodes f t⟩).disconnectLog =
        st.disconnectLog ++ (st.outputNodes f).map (fun x => (f, x)) := by
  have h := disconnectAllLoop_spec f (st.outputNodes f) st rfl
  exact ⟨h.1, h.2⟩

/-- Counterexample to C6 as stated: after two ADD events carrying the same
source node 7, the tracked source-node collection holds the identity twice —
`push_back` on the tracked vector does not deduplicate, so the collection is
not a set and holds more than one liveness entry per identity. -/
theorem C6_counterexample :
    (settlePendingConnections stDupAdd).sourceNodes = [7, 7] ∧
    ¬ (settlePendingConnections stDupAdd).sourceNodes.count 7 ≤ 1 := by
  decide

/-- C6 amended: processing an ADD event appends the carried node, source node
or parameter to the corresponding tracked collection; a second ADD carrying
the same identity appends a second entry rather than merging. -/
theorem C6_add_appends (st : Sys) (n p : Nat) :
    (handleAddToDeconstructionEvent st
      ⟨ConnectionType.ADD, EventPayload.node n⟩).processingNodes = st.processingNodes ++ [n] ∧
    (handleAddToDeconstructionEvent st
      ⟨ConnectionType.ADD, EventPayload.sourceNode n⟩).sourceNodes = st.sourceNodes ++ [n] ∧
    (handleAddToDeconstructionEvent st
      ⟨ConnectionType.ADD, EventPayload.audioParam p⟩).audioParams = st.audioParams ++ [p] :=
  ⟨rfl, rfl, rfl⟩

/-- Counterexample to C4 as stated: node 3 is tracked, finished and solely
owned, but the destructor channel has capacity 0, so a sweep cleans it up and
fails to retire it; shutdown then cleans it up again. After shutdown all
collections are empty, yet the node's lifetime cleanup count is 2, not
exactly once. -/
theorem C4_counterexample :
    (cleanup (prepareNodesForDestruction stStuck)).sourceNodes = [] ∧
    (cleanup (prepareNodesForDestruction stStuck)).processingNodes = [] ∧
    (cleanup (prepareNodesForDestruction stStuck)).audioParams = [] ∧
    (cleanup (prepareNodesForDestruction stStuck)).cleanupCount 3 = 2 := by
  decide

/-- C4 amended: after `cleanup` (shutdown) all three tracked collections are
empty and shutdown itself invokes cleanup exactly once per tracked occurrence
of every node; over a node's whole lifetime cleanup can run more than once,
since a sweep whose retire attempt failed has already cleaned the node. -/
theorem C4_shutdown_amended (st : Sys) (n : Nat) :
    (cleanup st).sourceNodes = [] ∧
    (cleanup st).processingNodes = [] ∧
    (cleanup st).audioParams = [] ∧
    (cleanup st).cleanupCount n =
      st.cleanupCount n + st.sourceNodes.count n + st.processingNodes.count n :=
  ⟨rfl, rfl, rfl, cleanup_cleanupCount st n⟩

/-- Counterexample to C3 as stated: starting from `initSys` (empty channel),
enqueue ADD for source node 0 and CONNECT for (0, parameter 1), then run one
`preProcessGraph`. The binding 0→1 is installed, but node 0 — observed with
use count 1 and state UNSCHEDULED — is immediately retired by the sweep half
of `preProcessGraph`, so it is not a member of the tracked source-node
collection afterwards. -/
theorem C3_counterexample :
    0 ∉ (preProcessGraph
      (addPendingParamConnection (addSourceNode initSys 0) 0 1
        ConnectionType.CONNECT)).sourceNodes ∧
    1 ∈ (preProcessGraph
      (addPendingParamConnection (addSourceNode initSys 0) 0 1
        ConnectionType.CONNECT)).outputParams 0 := by
  decide

/-- C3 amended: starting from an empty mutation channel, after enqueueing ADD
for source node S and CONNECT for (S, parameter P), one `preProcessGraph`
call installs the binding S→P, and S is a member of the tracked source-node
collection provided the sweep guard does not already select S — that is,
provided S's observed use count differs from 1 or S is scheduled or playing;
otherwise the sweep half of `preProcessGraph` retires S at once. -/
theorem C3_scenarioA (st : Sys) (S P : Nat)
    (hch : st.channel = [])
    (hguard : sourceQualifies st S = false) :
    S ∈ (preProcessGraph
      (addPendingParamConnection (addSourceNode st S) S P ConnectionType.CONNECT)).sourceNodes ∧
    P ∈ (preProcessGraph
      (addPendingParamConnection (addSourceNode st S) S P ConnectionType.CONNECT)).outputParams S := by
  have hchan : (addPendingParamConnection (addSourceNode st S) S P ConnectionType.CONNECT).channel =
      [⟨ConnectionType.ADD, EventPayload.sourceNode S⟩,
       ⟨ConnectionType.CONNECT, EventPayload.params S P⟩] := by
    simp [addSourceNode, addPendingParamConnection, hch]
  have hsettle : settlePendingConnections
      (addPendingParamConnection (addSourceNode st S) S P ConnectionType.CONNECT) =
      settleLoop
        [⟨ConnectionType.ADD, EventPayload.sourceNode S⟩,
         ⟨ConnectionType.CONNECT, EventPayload.params S P⟩]
        { addPendingParamConnection (addSourceNode st S) S P ConnectionType.CONNECT with
          channel := [] } := by
    rw [show settlePendingConnections
        (addPendingParamConnection (addSourceNode st S) S P ConnectionType.CONNECT) =
      settleLoop
        (addPendingParamConnection (addSourceNode st S) S P ConnectionType.CONNECT).channel
        { addPendingParamConnection (addSourceNode st S) S P ConnectionType.CONNECT with
          channel := [] } from rfl, hchan]
  have hval : (settlePendingConnections
        (addPendingParamConnection (addSourceNode st S) S P ConnectionType.CONNECT)).sourceNodes =
        st.sourceNodes ++ [S] ∧
      (settlePendingConnections
        (addPendingParamConnection (addSourceNode st S) S P ConnectionType.CONNECT)).outputParams S =
        st.outputParams S ++ [P] ∧
      (settlePendingConnections
        (addPendingParamConnection (addSourceNode st S) S P ConnectionType.CONNECT)).useCount =
        st.useCount ∧
      (settlePendingConnections
        (addPendingParamConnection (addSourceNode st S) S P ConnectionType.CONNECT)).state =
        st.state := by
    rw [hsettle]
    refine ⟨?_, ?_, ?_, ?_⟩ <;>
      simp [settleLoop, dispatchEvent, handleConnectEvent, handleAddToDeconstructionEvent,
        connectParam, addSourceNode, addPendingParamConnection]
  have hq2 : sourceQualifies (settlePendingConnections
      (addPendingParamConnection (addSourceNode st S) S P ConnectionType.CONNECT)) S = false := by
    rw [sourceQualifies_congr st _ S hval.2.2.1 hval.2.2.2]
    exact hguard
  have hmem2 : S ∈ (settlePendingConnections
      (addPendingParamConnection (addSourceNode st S) S P ConnectionType.CONNECT)).sourceNodes := by
    rw [hval.1]
    simp
  constructor
  · exact prepare_mem_source _ S hq2 hmem2
  · show P ∈ (prepareNodesForDestruction (settlePendingConnections
      (addPendingParamConnection (addSourceNode st S) S P ConnectionType.CONNECT))).outputParams S
    rw [prepare_outputParams, hval.2.1]
    simp

/-- Witness for the amended C3 at the concrete state `stHeld` (every node
externally held, so the guard hypothesis holds), S = 0, P = 1. -/
theorem C3_scenarioA_witness :
    (stHeld.channel = [] ∧ sourceQualifies stHeld 0 = false) ∧
    (0 ∈ (preProcessGraph
      (addPendingParamConnection (addSourceNode stHeld 0) 0 1 ConnectionType.CONNECT)).sourceNodes ∧
     1 ∈ (preProcessGraph
      (addPendingParamConnection (addSourceNode stHeld 0) 0 1 ConnectionType.CONNECT)).outputParams 0) :=
  ⟨⟨by decide, by decide⟩, C3_scenarioA stHeld 0 1 (by decide) (by decide)⟩

/-- C5: a qualifying tracked source node facing a full destructor channel is
not erased by the sweep — the non-blocking retire attempt fails and the node
stays in its tracked collection — and once the destructor thread has drained
the channel, the next sweep retires the same node: it leaves the collection
and appears on the destructor channel. -/
theorem C5_backpressure_retry (st : Sys) (n : Nat)
    (hmem : n ∈ st.sourceNodes)
    (hq : sourceQualifies st n = true)
    (hfull : ¬ st.destructorQueue.length < st.destructorCap)
    (hlen : st.sourceNodes.length ≤ st.destructorCap) :
    n ∈ (prepareNodesForDestruction st).sourceNodes ∧
    n ∉ (prepareNodesForDestruction
      (drainDestructor (prepareNodesForDestruction st))).sourceNodes ∧
    n ∈ (prepareNodesForDestruction
      (drainDestructor (prepareNodesForDestruction st))).destructorQueue := by
  have hp := prepare_full st hfull
  have hmem1 : n ∈ (prepareNodesForDestruction st).sourceNodes := by
    rw [hp.1]; exact hmem
  have hu : (drainDestructor (prepareNodesForDestruction st)).useCount = st.useCount := by
    rw [drainDestructor_useCount, prepare_useCount]
  have hst : (drainDestructor (prepareNodesForDestruction st)).state = st.state := by
    rw [drainDestructor_state, prepare_state]
  have hq2 : sourceQualifies (drainDestructor (prepareNodesForDestruction st)) n = true := by
    rw [sourceQualifies_congr st _ n hu hst]
    exact hq
  have hmem2 : n ∈ (drainDestructor (prepareNodesForDestruction st)).sourceNodes := by
    rw [drainDestructor_sourceNodes, hp.1]
    exact hmem
  have hcap2 : (drainDestructor (prepareNodesForDestruction st)).destructorQueue.length +
      (drainDestructor (prepareNodesForDestruction st)).sourceNodes.length ≤
      (drainDestructor (prepareNodesForDestruction st)).destructorCap := by
    rw [drainDestructor_destructorQueue, drainDestructor_sourceNodes, hp.1,
      drainDestructor_destructorCap, prepare_destructorCap]
    simpa using hlen
  obtain ⟨hA, hB⟩ := prepare_retire_source
    (drainDestructor (prepareNodesForDestruction st)) n hq2 hmem2 hcap2
  exact ⟨hmem1, hA, hB⟩

/-- Witness for C5 at the concrete state `stBackpressure` and node 2. -/
theorem C5_backpressure_retry_witness :
    (2 ∈ stBackpressure.sourceNodes ∧ sourceQualifies stBackpressure 2 = true ∧
     ¬ stBackpressure.destructorQueue.length < stBackpressure.destructorCap ∧
     stBackpressure.sourceNodes.length ≤ stBackpressure.destructorCap) ∧
    (2 ∈ (prepareNodesForDestruction stBackpressure).sourceNodes ∧
     2 ∉ (prepareNodesForDestruction
       (drainDestructor (prepareNodesForDestruction stBackpressure))).sourceNodes ∧
     2 ∈ (prepareNodesForDestruction
       (drainDestructor (prepareNodesForDestruction stBackpressure))).destructorQueue) :=
  ⟨⟨by decide, by decide, by decide, by decide⟩,
    C5_backpressure_retry stBackpressure 2 (by decide) (by decide) (by decide) (by decide)⟩

/-- C10: each qualifying sweep invokes the node's cleanup before the retire
attempt and a failed retire does not undo it: after j sweeps under a full
destructor channel the node has been cleaned j times and is still tracked,
and the subsequent sweep after the channel is drained cleans it once more —
j + 1 invocations in total for j + 1 qualifying sweeps — before successfully
retiring it, so correctness relies on cleanup being idempotent. -/
theorem C10_cleanup_before_retire (st : Sys) (n j : Nat)
    (hmem : n ∈ st.sourceNodes)
    (hcnt : st.sourceNodes.count n = 1)
    (hproc : n ∉ st.processingNodes)
    (hq : sourceQualifies st n = true)
    (hfull : ¬ st.destructorQueue.length < st.destructorCap)
    (hlen : st.sourceNodes.length ≤ st.destructorCap) :
    (prepareNodesForDestruction^[j] st).cleanupCount n = st.cleanupCount n + j ∧
    n ∈ (prepareNodesForDestruction^[j] st).sourceNodes ∧
    (prepareNodesForDestruction
      (drainDestructor (prepareNodesForDestruction^[j] st))).cleanupCount n =
      st.cleanupCount n + j + 1 ∧
    n ∉ (prepareNodesForDestruction
      (drainDestructor (prepareNodesForDestruction^[j] st))).sourceNodes := by
  obtain ⟨h1, h2, h3, h4, h5, h6, h7⟩ := prepare_iterate_full st j hfull
  have hz : st.processingNodes.count n = 0 := List.count_eq_zero.mpr hproc
  have hcc : (prepareNodesForDestruction^[j] st).cleanupCount n = st.cleanupCount n + j := by
    rw [h7 n]
    simp [hq, hcnt, hz]
  have hu : (drainDestructor (prepareNodesForDestruction^[j] st)).useCount = st.useCount := by
    rw [drainDestructor_useCount, h5]
  have hst : (drainDestructor (prepareNodesForDestruction^[j] st)).state = st.state := by
    rw [drainDestructor_state, h6]
  have hq2 : sourceQualifies (drainDestructor (prepareNodesForDestruction^[j] st)) n = true := by
    rw [sourceQualifies_congr st _ n hu hst]
    exact hq
  have hmem2 : n ∈ (drainDestructor (prepareNodesForDestruction^[j] st)).sourceNodes := by
    rw [drainDestructor_sourceNodes, h1]
    exact hmem
  have hcap2 : (drainDestructor (prepareNodesForDestruction^[j] st)).destructorQueue.length +
      (drainDestructor (prepareNodesForDestruction^[j] st)).sourceNodes.length ≤
      (drainDestructor (prepareNodesForDestruction^[j] st)).destructorCap := by
    rw [drainDestructor_destructorQueue, drainDestructor_sourceNodes, h1,
      drainDestructor_destructorCap, h4]
    simpa using hlen
  obtain ⟨hA, hB⟩ := prepare_retire_source
    (drainDestructor (prepareNodesForDestruction^[j] st)) n hq2 hmem2 hcap2
  refine ⟨hcc, by rw [h1]; exact hmem, ?_, hA⟩
  rw [prepare_cleanupCount, drainDestructor_cleanupCount, hcc,
    sourceQualifies_congr st _ n hu hst,
    processingQualifies_congr st _ n hu,
    drainDestructor_sourceNodes, h1, drainDestructor_processingNodes, h2]
  simp [hq, hcnt, hz]

/-- Witness for C10 at the concrete state `stRepeat`, node 4, two failing
sweeps (j = 2) before the successful one. -/
theorem C10_cleanup_before_retire_witness :
    (4 ∈ stRepeat.sourceNodes ∧ stRepeat.sourceNodes.count 4 = 1 ∧
     4 ∉ stRepeat.processingNodes ∧ sourceQualifies stRepeat 4 = true ∧
     ¬ stRepeat.destructorQueue.length < stRepeat.destructorCap ∧
     stRepeat.sourceNodes.length ≤ stRepeat.destructorCap) ∧
    ((prepareNodesForDestruction^[2] stRepeat).cleanupCount 4 = stRepeat.cleanupCount 4 + 2 ∧
     4 ∈ (prepareNodesForDestruction^[2] stRepeat).sourceNodes ∧
     (prepareNodesForDestruction
       (drainDestructor (prepareNodesForDestruction^[2] stRepeat))).cleanupCount 4 =
       stRepeat.cleanupCount 4 + 2 + 1 ∧
     4 ∉ (prepareNodesForDestruction
       (drainDestructor (prepareNodesForDestruction^[2] stRepeat))).sourceNodes) :=
  ⟨⟨by decide, by decide, by decide, by decide, by decide, by decide⟩,
    C10_cleanup_before_retire stRepeat 4 2 (by decide) (by decide) (by decide)
      (by decide) (by decide) (by decide)⟩

end AudioApi
